import Mathlib

/-!
Shallow embedding of the rust-vmm acpi_tables table builders
(src/madt.rs, src/rhct.rs, src/rqsc.rs, src/xsdt.rs and the checksum
helper of src/lib.rs), together with proofs of the specified
invariants.  Bytes are modelled as natural numbers (values kept below
256 by construction), machine integers as naturals reduced modulo the
machine width where the source's wrapping arithmetic can matter, and
the byte-sink abstraction as explicit list-of-bytes state passing.
-/

/-- Wrapping 8-bit addition, `u8::wrapping_add`. -/
def u8_wadd (a b : Nat) : Nat := (a + b) % 256

/-- Wrapping 8-bit subtraction, `u8::wrapping_sub`. -/
def u8_wsub (a b : Nat) : Nat := (a % 256 + 256 - b % 256) % 256

/-- Little-endian encoding of a 16-bit value (the low 16 bits of `n`). -/
def le16 (n : Nat) : List Nat := [n % 256, n / 256 % 256]

/-- Little-endian encoding of a 32-bit value (the low 32 bits of `n`). -/
def le32 (n : Nat) : List Nat :=
  [n % 256, n / 2 ^ 8 % 256, n / 2 ^ 16 % 256, n / 2 ^ 24 % 256]

/-- Little-endian encoding of a 64-bit value (the low 64 bits of `n`). -/
def le64 (n : Nat) : List Nat :=
  [n % 256, n / 2 ^ 8 % 256, n / 2 ^ 16 % 256, n / 2 ^ 24 % 256,
   n / 2 ^ 32 % 256, n / 2 ^ 40 % 256, n / 2 ^ 48 % 256, n / 2 ^ 56 % 256]

/-- `generate_checksum` from src/lib.rs:
`(255 - data.iter().fold(0u8, |acc, x| acc.wrapping_add(*x))).wrapping_add(1)`. -/
def generate_checksum (data : List Nat) : Nat :=
  u8_wadd (255 - data.foldl u8_wadd 0) 1

/-- Modelled from the spec: the incremental checksum accumulator of the
core framework (its source file is not under src/); §3/§4.2 describe a
single running byte with wrapping-add `append`, its exact inverse
`delete`, a one-byte `add`, and `value()` returning the byte that makes
the full stream sum to 0 mod 256. -/
structure Checksum where
  state : Nat
deriving DecidableEq, Repr

/-- Modelled from the spec: a fresh accumulator starts at zero. -/
def Checksum.default : Checksum := ⟨0⟩

/-- Modelled from the spec: `append(bytes)` folds each byte into the
running state via wrapping addition. -/
def Checksum.append (c : Checksum) (bs : List Nat) : Checksum :=
  ⟨bs.foldl u8_wadd c.state⟩

/-- Modelled from the spec: `delete(bytes)` is the exact inverse of a
prior `append` of the same bytes (wrapping subtraction). -/
def Checksum.delete (c : Checksum) (bs : List Nat) : Checksum :=
  ⟨bs.foldl u8_wsub c.state⟩

/-- Modelled from the spec: `add(byte)` folds in one precomputed byte. -/
def Checksum.add (c : Checksum) (b : Nat) : Checksum :=
  ⟨u8_wadd c.state b⟩

/-- Modelled from the spec: `value()` returns the checksum byte
(`255 - state` plus one, wrapping), the additive inverse of the state. -/
def Checksum.value (c : Checksum) : Nat :=
  u8_wadd (255 - c.state % 256) 1

/-- Modelled from the spec: `u8sum` (defined with the missing core
framework) replays a structure's serialized bytes into a checksum-style
sink and returns their wrapping 8-bit sum. -/
def u8sum (bs : List Nat) : Nat := bs.foldl u8_wadd 0

/-- Modelled from the spec: the process-wide 4-byte creator-id constant
(§9); its exact value is not under src/ and does not affect any claim. -/
def CREATOR_ID : List Nat := [82, 86, 65, 84]

/-- Modelled from the spec: the process-wide 4-byte creator-revision
constant (§9); its exact value is not under src/ and does not affect any
claim. -/
def CREATOR_REVISION : List Nat := [0, 0, 0, 0]

/-- A byte-at-a-time sink loop: `for byte in bs { sink.byte(byte) }`. -/
def sinkBytes (sink : List Nat) (bs : List Nat) : List Nat :=
  bs.foldl (fun s b => s ++ [b]) sink

theorem sinkBytes_eq (sink bs : List Nat) : sinkBytes sink bs = sink ++ bs := by
  induction bs generalizing sink with
  | nil => simp [sinkBytes]
  | cons b rest ih =>
    simp only [sinkBytes, List.foldl_cons] at *
    rw [ih (sink ++ [b])]
    simp

theorem foldl_append_map {α : Type} (f : α → List Nat) (l : List α)
    (a : List Nat) :
    l.foldl (fun s x => s ++ f x) a = a ++ (l.map f).flatten := by
  induction l generalizing a with
  | nil => simp
  | cons x rest ih =>
    simp only [List.foldl_cons, List.map_cons, List.flatten]
    rw [ih]
    simp

theorem foldl_append_id (l : List (List Nat)) (a : List Nat) :
    l.foldl (fun s x => s ++ x) a = a ++ l.flatten := by
  induction l generalizing a with
  | nil => simp
  | cons x rest ih =>
    simp only [List.foldl_cons, List.flatten]
    rw [ih]
    simp

theorem foldl_wadd_lt (bs : List Nat) (a : Nat) (h : a < 256) :
    bs.foldl u8_wadd a < 256 := by
  induction bs generalizing a with
  | nil => exact h
  | cons b rest ih =>
    exact ih _ (Nat.mod_lt _ (by omega))

theorem foldl_wadd_mod (bs : List Nat) (a : Nat) :
    bs.foldl u8_wadd a % 256 = (a + bs.sum) % 256 := by
  induction bs generalizing a with
  | nil => simp
  | cons b rest ih =>
    simp only [List.foldl_cons, List.sum_cons]
    rw [ih]
    simp only [u8_wadd]
    omega

theorem foldl_wsub_lt (bs : List Nat) (a : Nat) (h : a < 256) :
    bs.foldl u8_wsub a < 256 := by
  induction bs generalizing a with
  | nil => exact h
  | cons b rest ih =>
    exact ih _ (Nat.mod_lt _ (by omega))

theorem foldl_wsub_mod (bs : List Nat) (a : Nat) :
    (bs.foldl u8_wsub a + bs.sum) % 256 = a % 256 := by
  induction bs generalizing a with
  | nil => simp
  | cons b rest ih =>
    simp only [List.foldl_cons, List.sum_cons]
    have h2 := ih (u8_wsub a b)
    simp only [u8_wsub] at *
    omega

/-- RISC-V Interrupt Controller structure from src/madt.rs (all fields
public in the source, hence arbitrary field values are representable). -/
structure RINTC where
  type_tag : Nat
  length : Nat
  version : Nat
  reserved : Nat
  flags : Nat
  hart_id : Nat
  acpi_processor_uid : Nat
deriving DecidableEq, Repr

/-- Hart status flag values from src/madt.rs. -/
inductive HartStatus where
  | disabled
  | enabled
  | onlineCapable
deriving DecidableEq, Repr

def HartStatus.toNat : HartStatus → Nat
  | .disabled => 0
  | .enabled => 1
  | .onlineCapable => 2

/-- `RINTC::new` from src/madt.rs (type 0x18, length 0x14, version 1). -/
def RINTC.new (hart_status : HartStatus) (mhartid : Nat)
    (acpi_processor_uid : Nat) : RINTC :=
  { type_tag := 0x18, length := 0x14, version := 1, reserved := 0,
    flags := hart_status.toNat, hart_id := mhartid,
    acpi_processor_uid := acpi_processor_uid }

/-- Byte layout of an RINTC record (`#[repr(C, packed)]`, `AsBytes`). -/
def RINTC.asBytes (r : RINTC) : List Nat :=
  [r.type_tag, r.length, r.version, r.reserved] ++ le32 r.flags ++
    le64 r.hart_id ++ le32 r.acpi_processor_uid

/-- IMSIC structure from src/madt.rs. -/
structure IMSIC where
  type_tag : Nat
  length : Nat
  version : Nat
  num_supervisor_interrupt_identities : Nat
  num_guest_interrupt_identities : Nat
  guest_index_bits : Nat
  hart_index_bits : Nat
  group_index_bits : Nat
  group_index_shift : Nat
deriving DecidableEq, Repr

/-- `IMSIC::new` from src/madt.rs (type 0x19, length 16, version 1). -/
def IMSIC.new (nsii ngii gib hib grib gris : Nat) : IMSIC :=
  { type_tag := 0x19, length := 16, version := 1,
    num_supervisor_interrupt_identities := nsii,
    num_guest_interrupt_identities := ngii,
    guest_index_bits := gib, hart_index_bits := hib,
    group_index_bits := grib, group_index_shift := gris }

/-- Byte layout of an IMSIC record (16 bytes). -/
def IMSIC.asBytes (i : IMSIC) : List Nat :=
  [i.type_tag, i.length, i.version, 0, 0, 0, 0, 0] ++
    le16 i.num_supervisor_interrupt_identities ++
    le16 i.num_guest_interrupt_identities ++
    [i.guest_index_bits, i.hart_index_bits, i.group_index_bits,
     i.group_index_shift]

/-- APLIC structure from src/madt.rs. -/
structure APLIC where
  type_tag : Nat
  length : Nat
  version : Nat
  aplic_id : Nat
  hardware_id : List Nat
  number_of_idcs : Nat
  global_system_interrupt_base : Nat
  aplic_address : Nat
  aplic_size : Nat
  total_external_interrupt_sources : Nat
deriving DecidableEq, Repr

/-- `APLIC::new` from src/madt.rs (type 0x1a, length 38, version 1). -/
def APLIC.new (aplic_id : Nat) (hardware_id : List Nat)
    (number_of_idcs gsi_base aplic_address aplic_size teis : Nat) : APLIC :=
  { type_tag := 0x1a, length := 38, version := 1, aplic_id := aplic_id,
    hardware_id := hardware_id, number_of_idcs := number_of_idcs,
    global_system_interrupt_base := gsi_base,
    aplic_address := aplic_address, aplic_size := aplic_size,
    total_external_interrupt_sources := teis }

/-- Byte layout of an APLIC record (38 bytes when `hardware_id` has 8). -/
def APLIC.asBytes (a : APLIC) : List Nat :=
  [a.type_tag, a.length, a.version, 0] ++ le32 a.aplic_id ++
    a.hardware_id ++ le32 a.number_of_idcs ++
    le32 a.global_system_interrupt_base ++ le64 a.aplic_address ++
    le32 a.aplic_size ++ le16 a.total_external_interrupt_sources

/-- Argument of `MADT::new` from src/madt.rs. -/
inductive LocalInterruptController where
  | riscv
  | address (addr : Nat)
deriving DecidableEq, Repr

def LocalInterruptController.toNat : LocalInterruptController → Nat
  | .riscv => 0
  | .address a => a

/-- State of an interrupt-controller table builder, src/madt.rs: the
header fields (a `TableHeader` plus the local-interrupt-controller
address and flags), the incremental checksum accumulator, the ordered
substructure collection (each entry the bytes its `to_aml_bytes`
emits), and the IMSIC-singleton flag. -/
structure MADT where
  length : Nat
  revision : Nat
  checksum : Nat
  oem_id : List Nat
  oem_table_id : List Nat
  oem_revision : Nat
  lic_address : Nat
  flags : Nat
  cksum : Checksum
  structures : List (List Nat)
  has_imsic : Bool
deriving DecidableEq, Repr

/-- Bytes of the MADT header: `TableHeader` (signature `"APIC"`) then
the two MADT-specific dwords, as laid out in src/madt.rs. -/
def MADT.headerBytes (m : MADT) : List Nat :=
  [65, 80, 73, 67] ++ le32 m.length ++ [m.revision, m.checksum] ++
    m.oem_id ++ m.oem_table_id ++ le32 m.oem_revision ++
    CREATOR_ID ++ CREATOR_REVISION ++ le32 m.lic_address ++ le32 m.flags

/-- `MADT::new` from src/madt.rs: header length 44, revision 1, seed the
checksum with the bare header (checksum field still zero), then store
the checksum byte. -/
def MADT.new (oem_id oem_table_id : List Nat) (oem_revision : Nat)
    (int : LocalInterruptController) : MADT :=
  let m0 : MADT :=
    { length := 44, revision := 1, checksum := 0, oem_id := oem_id,
      oem_table_id := oem_table_id, oem_revision := oem_revision,
      lic_address := int.toNat, flags := 0, cksum := Checksum.default,
      structures := [], has_imsic := false }
  let c := Checksum.default.append m0.headerBytes
  { m0 with cksum := c, checksum := c.value }

/-- `MADT::update_header` from src/madt.rs: grow the length (u32,
wrapping), retract the old length encoding from the accumulator, fold
in the new encoding and the new data, refresh the checksum field. -/
def MADT.updateHeader (m : MADT) (data : List Nat) : MADT :=
  let len := data.length % 2 ^ 32
  let oldLen := m.length
  let newLen := (len + oldLen) % 2 ^ 32
  let c := ((m.cksum.delete (le32 oldLen)).append (le32 newLen)).append data
  { m with length := newLen, cksum := c, checksum := c.value }

/-- Shared body of the MADT `add_*` operations: update the header for
the new structure's bytes and push the structure. -/
def MADT.addBytes (m : MADT) (bs : List Nat) : MADT :=
  let m1 := m.updateHeader bs
  { m1 with structures := m1.structures ++ [bs] }

/-- `MADT::add_rintc` from src/madt.rs. -/
def MADT.addRintc (m : MADT) (r : RINTC) : MADT :=
  m.addBytes r.asBytes

/-- `MADT::add_aplic` from src/madt.rs. -/
def MADT.addAplic (m : MADT) (a : APLIC) : MADT :=
  m.addBytes a.asBytes

/-- The successful branch of `MADT::add_imsic` from src/madt.rs. -/
def MADT.addImsicBody (m : MADT) (i : IMSIC) : MADT :=
  { m.addBytes i.asBytes with has_imsic := true }

/-- One append operation on a MADT. -/
inductive MadtOp where
  | rintc (r : RINTC)
  | imsic (i : IMSIC)
  | aplic (a : APLIC)
deriving DecidableEq, Repr

/-- One append call; `add_imsic` begins with `assert!(!self.has_imsic)`,
so a second IMSIC aborts (`none`) before any state is mutated. -/
def madtStep (m : MADT) : MadtOp → Option MADT
  | .rintc r => some (m.addRintc r)
  | .imsic i => if m.has_imsic then none else some (m.addImsicBody i)
  | .aplic a => some (m.addAplic a)

/-- A sequence of append calls from a given state; `none` as soon as
one of them aborts. -/
def madtRun (m : MADT) : List MadtOp → Option MADT
  | [] => some m
  | op :: rest =>
    match madtStep m op with
    | none => none
    | some m2 => madtRun m2 rest

/-- `Aml for MADT::to_aml_bytes` from src/madt.rs: stream the header
bytes, then every stored substructure, into the sink. -/
def MADT.toAmlBytesInto (m : MADT) (sink : List Nat) : List Nat :=
  m.structures.foldl (fun s st => s ++ st) (sinkBytes sink m.headerBytes)

/-- Serialization into a fresh byte buffer. -/
def MADT.serialize (m : MADT) : List Nat := m.toAmlBytesInto []

/-- `IsaStringNode::len` from src/rhct.rs: type (2) + length (2) +
revision (2) + string length (2) + string + NUL, rounded up to even. -/
def isaNodeLen (s : List Nat) : Nat :=
  let l := 8 + s.length + 1
  if l % 2 == 0 then l else l + 1

/-- Bytes emitted by `Aml for IsaStringNode::to_aml_bytes` in
src/rhct.rs: the ISA string is modelled as its byte list; `strlen` is
the Rust `string.len() as u16 + 1` (u16, hence reduced mod 2^16). -/
def isaNodeBytes (s : List Nat) : List Nat :=
  let strlen := (s.length % 2 ^ 16 + 1) % 2 ^ 16
  le16 0 ++ le16 (isaNodeLen s) ++ le16 1 ++ le16 strlen ++ s ++ [0] ++
    (if strlen % 2 == 1 then [0] else [])

/-- `HartInfoNode::len` from src/rhct.rs (one handle): 12 + 4. -/
def hartInfoLen : Nat := 12 + 4

/-- Bytes emitted by `Aml for HartInfoNode::to_aml_bytes` in
src/rhct.rs: type 65535, length 16, revision 1, one handle, the
processor uid and the stored handle offset. -/
def hartInfoBytes (processor_uid handle : Nat) : List Nat :=
  le16 65535 ++ le16 hartInfoLen ++ le16 1 ++ le16 1 ++
    le32 processor_uid ++ le32 handle

/-- State of the hart/ISA table builder, src/rhct.rs: the RHCT header
(a `TableHeader` plus reserved dword, timebase frequency, node count
and array offset), the running handle offset, the incremental checksum
accumulator and the ordered substructure collection. -/
structure RHCT where
  length : Nat
  revision : Nat
  checksum : Nat
  oem_id : List Nat
  oem_table_id : List Nat
  oem_revision : Nat
  timebase_frequency : Nat
  rhct_nodes : Nat
  array_offset : Nat
  handle_offset : Nat
  cksum : Checksum
  structures : List (List Nat)
deriving DecidableEq, Repr

/-- Bytes of the RHCT header (signature `"RHCT"`, reserved dword 0). -/
def RHCT.headerBytes (t : RHCT) : List Nat :=
  [82, 72, 67, 84] ++ le32 t.length ++ [t.revision, t.checksum] ++
    t.oem_id ++ t.oem_table_id ++ le32 t.oem_revision ++
    CREATOR_ID ++ CREATOR_REVISION ++ le32 0 ++
    le64 t.timebase_frequency ++ le32 t.rhct_nodes ++ le32 t.array_offset

/-- `RHCT::new` from src/rhct.rs: header length 56, node count 0, array
offset 56, handle offset 56; checksum seeded over the bare header. -/
def RHCT.new (oem_id oem_table_id : List Nat)
    (oem_revision timebase_frequency : Nat) : RHCT :=
  let t0 : RHCT :=
    { length := 56, revision := 1, checksum := 0, oem_id := oem_id,
      oem_table_id := oem_table_id, oem_revision := oem_revision,
      timebase_frequency := timebase_frequency, rhct_nodes := 0,
      array_offset := 56, handle_offset := 56,
      cksum := Checksum.default, structures := [] }
  let c := Checksum.default.append t0.headerBytes
  { t0 with cksum := c, checksum := c.value }

/-- `RHCT::update_header` from src/rhct.rs: grow the length and the
node count (u32, wrapping), retract/re-append both encodings in the
accumulator, fold in the node's own checksum contribution. -/
def RHCT.updateHeader (t : RHCT) (sum len : Nat) : RHCT :=
  let oldLen := t.length
  let newLen := (len + oldLen) % 2 ^ 32
  let oldCount := t.rhct_nodes
  let newCount := (oldCount + 1) % 2 ^ 32
  let c := (((((t.cksum.delete (le32 oldCount)).append
      (le32 newCount)).delete (le32 oldLen)).append
      (le32 newLen)).add sum)
  { t with length := newLen, rhct_nodes := newCount, cksum := c,
           checksum := c.value }

/-- Shared body of the RHCT append operations: advance the handle
offset by the node's length (u32, wrapping), update the header and
push the node. -/
def RHCT.addNode (t : RHCT) (len : Nat) (bs : List Nat) : RHCT :=
  let t1 := { t with
    handle_offset := (t.handle_offset + len % 2 ^ 32) % 2 ^ 32 }
  let t2 := t1.updateHeader (u8sum bs) (len % 2 ^ 32)
  { t2 with structures := t2.structures ++ [bs] }

/-- `RHCT::add_isa_string` from src/rhct.rs; also returns the handle
(the handle offset before the append). -/
def RHCT.addIsaString (t : RHCT) (s : List Nat) : RHCT × Nat :=
  (t.addNode (isaNodeLen s) (isaNodeBytes s), t.handle_offset)

/-- `RHCT::add_hart_info` from src/rhct.rs; the `HartInfoNode` is
represented by its processor uid and the handle it was built from. -/
def RHCT.addHartInfo (t : RHCT) (uid handle : Nat) : RHCT :=
  t.addNode hartInfoLen (hartInfoBytes uid handle)

/-- One append operation on an RHCT. -/
inductive RhctOp where
  | isa (s : List Nat)
  | hart (uid handle : Nat)
deriving DecidableEq, Repr

/-- The bytes the operation's node emits. -/
def rhctOpBytes : RhctOp → List Nat
  | .isa s => isaNodeBytes s
  | .hart uid handle => hartInfoBytes uid handle

/-- One append call (none of the RHCT appends can abort). -/
def rhctStep (t : RHCT) : RhctOp → RHCT
  | .isa s => (t.addIsaString s).1
  | .hart uid handle => t.addHartInfo uid handle

/-- A sequence of append calls from a given state. -/
def rhctRun (t : RHCT) : List RhctOp → RHCT
  | [] => t
  | op :: rest => rhctRun (rhctStep t op) rest

/-- `Aml for RHCT::to_aml_bytes` from src/rhct.rs: the header bytes,
then every stored substructure, into the sink. -/
def RHCT.toAmlBytesInto (t : RHCT) (sink : List Nat) : List Nat :=
  t.structures.foldl (fun s st => s ++ st) (sinkBytes sink t.headerBytes)

/-- Serialization into a fresh byte buffer. -/
def RHCT.serialize (t : RHCT) : List Nat := t.toAmlBytesInto []

/-- Modelled from the spec: the out-of-scope register-address
descriptor (`gas::GAS`, its source file is not under src/): a fixed
12-byte record — address-space id, register bit width, register bit
offset, access size, 64-bit address. -/
structure GAS where
  address_space_id : Nat
  register_bit_width : Nat
  register_bit_offset : Nat
  access_size : Nat
  address : Nat
deriving DecidableEq, Repr

/-- Modelled from the spec: byte layout of a GAS record (12 bytes). -/
def GAS.asBytes (g : GAS) : List Nat :=
  [g.address_space_id, g.register_bit_width, g.register_bit_offset,
   g.access_size] ++ le64 g.address

/-- QoS controller record from src/rqsc.rs. -/
structure QoSController where
  controller_type : Nat
  length : Nat
  register : GAS
  resource_type : Nat
  resource_id : Nat
  rcid_count : Nat
  mcid_count : Nat
deriving DecidableEq, Repr

/-- `QoSController::new` from src/rqsc.rs (length field 32). -/
def QoSController.new (controller_type : Nat) (register : GAS)
    (resource_type resource_id rcid_count mcid_count : Nat) :
    QoSController :=
  { controller_type := controller_type, length := 32,
    register := register, resource_type := resource_type,
    resource_id := resource_id, rcid_count := rcid_count,
    mcid_count := mcid_count }

/-- Byte layout of a QoS controller record (32 bytes). -/
def QoSController.asBytes (q : QoSController) : List Nat :=
  [q.controller_type, 0] ++ le16 q.length ++ q.register.asBytes ++
    [0, 0, 0, q.resource_type] ++ le32 q.resource_id ++
    le32 q.rcid_count ++ le32 q.mcid_count

/-- State of the QoS-controller table builder, src/rqsc.rs: a bare
`TableHeader` and the ordered controller collection (no persistent
checksum accumulator — the checksum is recomputed from scratch). -/
structure RQSC where
  length : Nat
  revision : Nat
  checksum : Nat
  oem_id : List Nat
  oem_table_id : List Nat
  oem_revision : Nat
  structures : List (List Nat)
deriving DecidableEq, Repr

/-- Bytes of the RQSC `TableHeader` (signature `"RQSC"`). -/
def RQSC.headerBytes (t : RQSC) : List Nat :=
  [82, 81, 83, 67] ++ le32 t.length ++ [t.revision, t.checksum] ++
    t.oem_id ++ t.oem_table_id ++ le32 t.oem_revision ++
    CREATOR_ID ++ CREATOR_REVISION

/-- `Aml for RQSC::to_aml_bytes` from src/rqsc.rs: the header bytes,
then a dword holding the number of stored controllers, then every
controller, into the sink. -/
def RQSC.toAmlBytesInto (t : RQSC) (sink : List Nat) : List Nat :=
  t.structures.foldl (fun s st => s ++ st)
    (sinkBytes sink t.headerBytes ++ le32 (t.structures.length % 2 ^ 32))

/-- Serialization into a fresh byte buffer. -/
def RQSC.serialize (t : RQSC) : List Nat := t.toAmlBytesInto []

/-- `RQSC::new` from src/rqsc.rs: header length 36 (`TableHeader::len`),
revision 1, checksum seeded over the bare header only. -/
def RQSC.new (oem_id oem_table_id : List Nat) (oem_revision : Nat) :
    RQSC :=
  let t0 : RQSC :=
    { length := 36, revision := 1, checksum := 0, oem_id := oem_id,
      oem_table_id := oem_table_id, oem_revision := oem_revision,
      structures := [] }
  let c := Checksum.default.append t0.headerBytes
  { t0 with checksum := c.value }

/-- `RQSC::update_header` from src/rqsc.rs: grow the length (u32,
wrapping), then zero the checksum field and recompute it by replaying
the whole serialization into a fresh accumulator. -/
def RQSC.updateHeader (t : RQSC) (data : List Nat) : RQSC :=
  let len := data.length % 2 ^ 32
  let newLen := (len + t.length) % 2 ^ 32
  let t1 := { t with length := newLen, checksum := 0 }
  let c := Checksum.default.append t1.serialize
  { t1 with checksum := c.value }

/-- `RQSC::add_controller` from src/rqsc.rs: push the controller, then
update the header with its bytes. -/
def RQSC.addController (t : RQSC) (q : QoSController) : RQSC :=
  ({ t with structures := t.structures ++ [q.asBytes] }).updateHeader
    q.asBytes

/-- A sequence of `add_controller` calls from a given state. -/
def rqscRun (t : RQSC) : List QoSController → RQSC
  | [] => t
  | q :: rest => rqscRun (t.addController q) rest

/-- Modelled from the spec: `size_of::<XSDT>()`, the in-memory size of
the Rust builder struct itself (packed 36-byte header, 1-byte checksum
accumulator, padding, 24-byte `Vec`) on the usual 64-bit target — 64
bytes; on every target it strictly exceeds the 36 header bytes. -/
def sizeOfXsdtStruct : Nat := 64

/-- State of the extended table-pointer table builder, src/xsdt.rs: its
(locally declared) header — identical in layout to `TableHeader` — the
incremental checksum accumulator and the appended 64-bit entries. -/
structure XSDT where
  length : Nat
  revision : Nat
  checksum : Nat
  oem_id : List Nat
  oem_table_id : List Nat
  oem_revision : Nat
  cksum : Checksum
  entries : List Nat
deriving DecidableEq, Repr

/-- Bytes of the XSDT header (signature `"XSDT"`). -/
def XSDT.headerBytes (t : XSDT) : List Nat :=
  [88, 83, 68, 84] ++ le32 t.length ++ [t.revision, t.checksum] ++
    t.oem_id ++ t.oem_table_id ++ le32 t.oem_revision ++
    CREATOR_ID ++ CREATOR_REVISION

/-- `XSDT::new` from src/xsdt.rs: the length field is initialized from
`size_of::<XSDT>()` (the builder struct, not the 36-byte header);
checksum seeded over the bare header. -/
def XSDT.new (oem_id oem_table_id : List Nat) (oem_revision : Nat) :
    XSDT :=
  let t0 : XSDT :=
    { length := sizeOfXsdtStruct, revision := 1, checksum := 0,
      oem_id := oem_id, oem_table_id := oem_table_id,
      oem_revision := oem_revision, cksum := Checksum.default,
      entries := [] }
  let c := Checksum.default.append t0.headerBytes
  { t0 with cksum := c, checksum := c.value }

/-- `XSDT::add_entry` from src/xsdt.rs: fold the entry's eight
little-endian bytes into the accumulator, refresh the checksum field,
push the entry; the length field is not touched. -/
def XSDT.addEntry (t : XSDT) (entry : Nat) : XSDT :=
  let c := t.cksum.append (le64 entry)
  { t with cksum := c, checksum := c.value,
           entries := t.entries ++ [entry] }

/-- A sequence of `add_entry` calls from a given state. -/
def xsdtRun (t : XSDT) : List Nat → XSDT
  | [] => t
  | e :: rest => xsdtRun (t.addEntry e) rest

/-- `Aml for XSDT::to_aml_bytes` from src/xsdt.rs: the header bytes,
then every entry as a little-endian qword, into the sink. -/
def XSDT.toAmlBytesInto (t : XSDT) (sink : List Nat) : List Nat :=
  t.entries.foldl (fun s e => s ++ le64 e) (sinkBytes sink t.headerBytes)

/-- Serialization into a fresh byte buffer. -/
def XSDT.serialize (t : XSDT) : List Nat := t.toAmlBytesInto []

theorem madt_toInto_eq (m : MADT) (sink : List Nat) :
    m.toAmlBytesInto sink = sink ++ m.headerBytes ++ m.structures.flatten := by
  simp [MADT.toAmlBytesInto, sinkBytes_eq, foldl_append_id]

theorem madt_serialize_eq (m : MADT) :
    m.serialize = m.headerBytes ++ m.structures.flatten := by
  simp [MADT.serialize, madt_toInto_eq]

theorem rhct_toInto_eq (t : RHCT) (sink : List Nat) :
    t.toAmlBytesInto sink = sink ++ t.headerBytes ++ t.structures.flatten := by
  simp [RHCT.toAmlBytesInto, sinkBytes_eq, foldl_append_id]

theorem rhct_serialize_eq (t : RHCT) :
    t.serialize = t.headerBytes ++ t.structures.flatten := by
  simp [RHCT.serialize, rhct_toInto_eq]

theorem rqsc_toInto_eq (t : RQSC) (sink : List Nat) :
    t.toAmlBytesInto sink =
      sink ++ t.headerBytes ++ le32 (t.structures.length % 2 ^ 32) ++
        t.structures.flatten := by
  simp [RQSC.toAmlBytesInto, sinkBytes_eq, foldl_append_id]

theorem rqsc_serialize_eq (t : RQSC) :
    t.serialize = t.headerBytes ++ le32 (t.structures.length % 2 ^ 32) ++
      t.structures.flatten := by
  simp [RQSC.serialize, rqsc_toInto_eq]

theorem xsdt_toInto_eq (t : XSDT) (sink : List Nat) :
    t.toAmlBytesInto sink =
      sink ++ t.headerBytes ++ (t.entries.map le64).flatten := by
  simp [XSDT.toAmlBytesInto, sinkBytes_eq, foldl_append_map]

theorem xsdt_serialize_eq (t : XSDT) :
    t.serialize = t.headerBytes ++ (t.entries.map le64).flatten := by
  simp [XSDT.serialize, xsdt_toInto_eq]

/-- Sum of the MADT header bytes other than the length and checksum
fields. -/
def MADT.headerRest (m : MADT) : Nat :=
  285 + m.revision + m.oem_id.sum + m.oem_table_id.sum +
    (le32 m.oem_revision).sum + CREATOR_ID.sum + CREATOR_REVISION.sum +
    (le32 m.lic_address).sum + (le32 m.flags).sum

theorem madt_headerBytes_sum (m : MADT) :
    m.headerBytes.sum = (le32 m.length).sum + m.checksum + m.headerRest := by
  simp [MADT.headerBytes, MADT.headerRest]
  omega

/-- Sum of every serialized MADT byte except the checksum field. -/
def MADT.baseSum (m : MADT) : Nat :=
  (le32 m.length).sum + m.headerRest + m.structures.flatten.sum

theorem madt_serialize_sum (m : MADT) :
    m.serialize.sum = m.baseSum + m.checksum := by
  simp [madt_serialize_eq, MADT.baseSum, madt_headerBytes_sum]
  omega

/-- Sum of the RHCT header bytes other than the length, checksum and
node-count fields. -/
def RHCT.headerRest (t : RHCT) : Nat :=
  305 + t.revision + t.oem_id.sum + t.oem_table_id.sum +
    (le32 t.oem_revision).sum + CREATOR_ID.sum + CREATOR_REVISION.sum +
    (le64 t.timebase_frequency).sum + (le32 t.array_offset).sum

theorem rhct_headerBytes_sum (t : RHCT) :
    t.headerBytes.sum =
      (le32 t.length).sum + (le32 t.rhct_nodes).sum + t.checksum +
        t.headerRest := by
  simp [RHCT.headerBytes, RHCT.headerRest, le32]
  omega

/-- Sum of every serialized RHCT byte except the checksum field. -/
def RHCT.baseSum (t : RHCT) : Nat :=
  (le32 t.length).sum + (le32 t.rhct_nodes).sum + t.headerRest +
    t.structures.flatten.sum

theorem rhct_serialize_sum (t : RHCT) :
    t.serialize.sum = t.baseSum + t.checksum := by
  simp [rhct_serialize_eq, RHCT.baseSum, rhct_headerBytes_sum]
  omega

/-- Sum of the RQSC header bytes other than the length and checksum
fields. -/
def RQSC.headerRest (t : RQSC) : Nat :=
  313 + t.revision + t.oem_id.sum + t.oem_table_id.sum +
    (le32 t.oem_revision).sum + CREATOR_ID.sum + CREATOR_REVISION.sum

theorem rqsc_headerBytes_sum (t : RQSC) :
    t.headerBytes.sum = (le32 t.length).sum + t.checksum + t.headerRest := by
  simp [RQSC.headerBytes, RQSC.headerRest]
  omega

/-- Sum of every serialized RQSC byte except the checksum field. -/
def RQSC.baseSum (t : RQSC) : Nat :=
  (le32 t.length).sum + t.headerRest +
    (le32 (t.structures.length % 2 ^ 32)).sum + t.structures.flatten.sum

theorem rqsc_serialize_sum (t : RQSC) :
    t.serialize.sum = t.baseSum + t.checksum := by
  simp [rqsc_serialize_eq, RQSC.baseSum, rqsc_headerBytes_sum]
  omega

/-- Sum of the XSDT header bytes other than the length and checksum
fields. -/
def XSDT.headerRest (t : XSDT) : Nat :=
  323 + t.revision + t.oem_id.sum + t.oem_table_id.sum +
    (le32 t.oem_revision).sum + CREATOR_ID.sum + CREATOR_REVISION.sum

theorem xsdt_headerBytes_sum (t : XSDT) :
    t.headerBytes.sum = (le32 t.length).sum + t.checksum + t.headerRest := by
  simp [XSDT.headerBytes, XSDT.headerRest]
  omega

/-- Sum of every serialized XSDT byte except the checksum field. -/
def XSDT.baseSum (t : XSDT) : Nat :=
  (le32 t.length).sum + t.headerRest + (t.entries.map le64).flatten.sum

theorem xsdt_serialize_sum (t : XSDT) :
    t.serialize.sum = t.baseSum + t.checksum := by
  simp [xsdt_serialize_eq, XSDT.baseSum, xsdt_headerBytes_sum]
  omega

/-- The incremental-checksum invariant of a MADT: the accumulator state
is a byte congruent to the sum of every serialized byte except the
checksum field, and the checksum field is the accumulator's value. -/
def MADT.Inv (m : MADT) : Prop :=
  m.cksum.state < 256 ∧ m.cksum.state % 256 = m.baseSum % 256 ∧
    m.checksum = m.cksum.value

theorem madt_inv_sum_zero (m : MADT) (h : m.Inv) :
    m.serialize.sum % 256 = 0 := by
  obtain ⟨h1, h2, h3⟩ := h
  rw [madt_serialize_sum, h3]
  simp only [Checksum.value, u8_wadd]
  omega


theorem madt_new_inv (o1 o2 : List Nat) (orv : Nat)
    (lic : LocalInterruptController) : (MADT.new o1 o2 orv lic).Inv := by
  unfold MADT.Inv MADT.new
  simp only [Checksum.append, Checksum.default, Checksum.value]
  refine ⟨foldl_wadd_lt _ _ (by omega), ?_, trivial⟩
  rw [foldl_wadd_mod]
  simp only [MADT.baseSum, MADT.headerRest, MADT.headerBytes,
    List.sum_append, List.sum_cons, List.sum_nil, List.flatten_nil]
  simp [CREATOR_ID, CREATOR_REVISION]
  omega

theorem MADT.addBytes_inv (m : MADT) (bs : List Nat) (h : m.Inv) :
    (m.addBytes bs).Inv := by
  obtain ⟨h1, h2, h3⟩ := h
  unfold MADT.Inv MADT.addBytes MADT.updateHeader
  simp only [Checksum.append, Checksum.delete, Checksum.value]
  have hs1 := foldl_wsub_mod (le32 m.length) m.cksum.state
  have hl1 := foldl_wsub_lt (le32 m.length) m.cksum.state h1
  have ha := foldl_wadd_mod
    (le32 ((bs.length % 2 ^ 32 + m.length) % 2 ^ 32))
    ((le32 m.length).foldl u8_wsub m.cksum.state)
  have hla := foldl_wadd_lt
    (le32 ((bs.length % 2 ^ 32 + m.length) % 2 ^ 32))
    ((le32 m.length).foldl u8_wsub m.cksum.state) hl1
  have hb := foldl_wadd_mod bs
    ((le32 ((bs.length % 2 ^ 32 + m.length) % 2 ^ 32)).foldl u8_wadd
      ((le32 m.length).foldl u8_wsub m.cksum.state))
  have hlb := foldl_wadd_lt bs
    ((le32 ((bs.length % 2 ^ 32 + m.length) % 2 ^ 32)).foldl u8_wadd
      ((le32 m.length).foldl u8_wsub m.cksum.state)) hla
  simp only [MADT.baseSum, MADT.headerRest] at h2
  refine ⟨hlb, ?_, trivial⟩
  simp only [MADT.baseSum, MADT.headerRest,
    List.flatten_append, List.flatten_cons, List.flatten_nil,
    List.sum_append, List.append_nil]
  omega

theorem madtStep_inv (m : MADT) (op : MadtOp) (m2 : MADT)
    (h : m.Inv) (hs : madtStep m op = some m2) : m2.Inv := by
  cases op with
  | rintc r =>
    simp only [madtStep, Option.some.injEq] at hs
    exact hs ▸ MADT.addBytes_inv m _ h
  | aplic a =>
    simp only [madtStep, Option.some.injEq] at hs
    exact hs ▸ MADT.addBytes_inv m _ h
  | imsic i =>
    simp only [madtStep] at hs
    cases hi : m.has_imsic with
    | true => rw [hi] at hs; simp at hs
    | false =>
      rw [hi] at hs
      simp only [Bool.false_eq_true, if_false, Option.some.injEq] at hs
      have hb := MADT.addBytes_inv m i.asBytes h
      subst hs
      exact hb

theorem madtRun_inv (ops : List MadtOp) (m m2 : MADT)
    (h : m.Inv) (hr : madtRun m ops = some m2) : m2.Inv := by
  induction ops generalizing m with
  | nil =>
    simp only [madtRun, Option.some.injEq] at hr
    exact hr ▸ h
  | cons op rest ih =>
    simp only [madtRun] at hr
    cases hstep : madtStep m op with
    | none => rw [hstep] at hr; exact absurd hr (by simp)
    | some mm =>
      rw [hstep] at hr
      exact ih mm (madtStep_inv m op mm h hstep) hr

theorem u8sum_mod (bs : List Nat) : u8sum bs % 256 = bs.sum % 256 := by
  unfold u8sum
  rw [foldl_wadd_mod]
  omega

theorem u8sum_lt (bs : List Nat) : u8sum bs < 256 := by
  exact foldl_wadd_lt _ _ (by omega)

/-- The incremental-checksum invariant of an RHCT. -/
def RHCT.Inv (t : RHCT) : Prop :=
  t.cksum.state < 256 ∧ t.cksum.state % 256 = t.baseSum % 256 ∧
    t.checksum = t.cksum.value

theorem rhct_inv_sum_zero (t : RHCT) (h : t.Inv) :
    t.serialize.sum % 256 = 0 := by
  obtain ⟨h1, h2, h3⟩ := h
  rw [rhct_serialize_sum, h3]
  simp only [Checksum.value, u8_wadd]
  omega

theorem rhct_new_inv (o1 o2 : List Nat) (orv tf : Nat) :
    (RHCT.new o1 o2 orv tf).Inv := by
  unfold RHCT.Inv RHCT.new
  simp only [Checksum.append, Checksum.default, Checksum.value]
  refine ⟨foldl_wadd_lt _ _ (by omega), ?_, trivial⟩
  rw [foldl_wadd_mod]
  simp only [RHCT.baseSum, RHCT.headerRest, RHCT.headerBytes,
    List.sum_append, List.sum_cons, List.sum_nil, List.flatten_nil]
  simp [CREATOR_ID, CREATOR_REVISION, le32]
  omega

theorem RHCT.addNode_inv (t : RHCT) (len : Nat) (bs : List Nat)
    (h : t.Inv) : (t.addNode len bs).Inv := by
  obtain ⟨h1, h2, h3⟩ := h
  unfold RHCT.Inv RHCT.addNode RHCT.updateHeader
  simp only [Checksum.append, Checksum.delete, Checksum.add,
    Checksum.value]
  have hs1 := foldl_wsub_mod (le32 t.rhct_nodes) t.cksum.state
  have hl1 := foldl_wsub_lt (le32 t.rhct_nodes) t.cksum.state h1
  set s1 := (le32 t.rhct_nodes).foldl u8_wsub t.cksum.state with hdef1
  have ha := foldl_wadd_mod (le32 ((t.rhct_nodes + 1) % 2 ^ 32)) s1
  have hla := foldl_wadd_lt (le32 ((t.rhct_nodes + 1) % 2 ^ 32)) s1 hl1
  set s2 := (le32 ((t.rhct_nodes + 1) % 2 ^ 32)).foldl u8_wadd s1 with hdef2
  have hs2 := foldl_wsub_mod (le32 t.length) s2
  have hl2 := foldl_wsub_lt (le32 t.length) s2 hla
  set s3 := (le32 t.length).foldl u8_wsub s2 with hdef3
  have hb := foldl_wadd_mod (le32 ((len % 2 ^ 32 + t.length) % 2 ^ 32)) s3
  have hlb := foldl_wadd_lt (le32 ((len % 2 ^ 32 + t.length) % 2 ^ 32)) s3 hl2
  set s4 := (le32 ((len % 2 ^ 32 + t.length) % 2 ^ 32)).foldl u8_wadd s3
    with hdef4
  have hu := u8sum_mod bs
  simp only [RHCT.baseSum, RHCT.headerRest] at h2
  refine ⟨by simp only [u8_wadd]; omega, ?_, trivial⟩
  simp only [RHCT.baseSum, RHCT.headerRest,
    List.flatten_append, List.flatten_cons, List.flatten_nil,
    List.sum_append, List.append_nil, u8_wadd]
  omega

theorem rhctStep_inv (t : RHCT) (op : RhctOp) (h : t.Inv) :
    (rhctStep t op).Inv := by
  cases op with
  | isa s => exact RHCT.addNode_inv _ _ _ h
  | hart uid handle => exact RHCT.addNode_inv _ _ _ h

theorem rhctRun_inv (ops : List RhctOp) (t : RHCT) (h : t.Inv) :
    (rhctRun t ops).Inv := by
  induction ops generalizing t with
  | nil => exact h
  | cons op rest ih => exact ih _ (rhctStep_inv t op h)

/-- The checksum invariant of an RQSC: the checksum field equals the
value obtained by replaying the whole serialization (with a zeroed
checksum field) into a fresh accumulator. -/
def RQSC.Inv (t : RQSC) : Prop :=
  t.checksum =
    (Checksum.default.append (RQSC.serialize { t with checksum := 0 })).value

theorem RQSC.baseSum_zero_ck (t : RQSC) :
    ({ t with checksum := 0 } : RQSC).baseSum = t.baseSum := by
  simp [RQSC.baseSum, RQSC.headerRest]

theorem rqsc_inv_sum_zero (t : RQSC) (h : t.Inv) :
    t.serialize.sum % 256 = 0 := by
  rw [rqsc_serialize_sum, h]
  simp only [Checksum.append, Checksum.default, Checksum.value]
  have hm := foldl_wadd_mod (RQSC.serialize { t with checksum := 0 }) 0
  have hl := foldl_wadd_lt (RQSC.serialize { t with checksum := 0 }) 0
    (by omega)
  have hsum : (RQSC.serialize { t with checksum := 0 }).sum = t.baseSum := by
    rw [rqsc_serialize_sum, RQSC.baseSum_zero_ck]
    simp
  rw [hsum] at hm
  simp only [u8_wadd]
  omega

theorem rqsc_new_inv (o1 o2 : List Nat) (orv : Nat) :
    (RQSC.new o1 o2 orv).Inv := by
  have key : ∀ bs : List Nat,
      (bs ++ le32 ((List.length ([] : List (List Nat))) % 2 ^ 32) ++
        ([] : List (List Nat)).flatten).foldl u8_wadd 0 =
        bs.foldl u8_wadd 0 := by
    intro bs
    have h1 : le32 ((List.length ([] : List (List Nat))) % 2 ^ 32) =
        [0, 0, 0, 0] := by
      simp [le32]
    rw [h1]
    have h2 := foldl_wadd_lt bs 0 (by omega)
    simp only [List.flatten_nil, List.append_nil, List.foldl_append]
    simp only [List.foldl_cons, List.foldl_nil, u8_wadd]
    omega
  unfold RQSC.Inv RQSC.new
  simp only [Checksum.append, Checksum.default, Checksum.value,
    rqsc_serialize_eq]
  rw [key]

theorem RQSC.addController_inv (t : RQSC) (q : QoSController) :
    (t.addController q).Inv := by
  unfold RQSC.addController RQSC.updateHeader RQSC.Inv
  rfl

theorem rqscRun_inv (qs : List QoSController) (t : RQSC) (h : t.Inv) :
    (rqscRun t qs).Inv := by
  induction qs generalizing t with
  | nil => exact h
  | cons q rest ih => exact ih _ (RQSC.addController_inv t q)

/-- The incremental-checksum invariant of an XSDT. -/
def XSDT.Inv (t : XSDT) : Prop :=
  t.cksum.state < 256 ∧ t.cksum.state % 256 = t.baseSum % 256 ∧
    t.checksum = t.cksum.value

theorem xsdt_inv_sum_zero (t : XSDT) (h : t.Inv) :
    t.serialize.sum % 256 = 0 := by
  obtain ⟨h1, h2, h3⟩ := h
  rw [xsdt_serialize_sum, h3]
  simp only [Checksum.value, u8_wadd]
  omega

theorem xsdt_new_inv (o1 o2 : List Nat) (orv : Nat) :
    (XSDT.new o1 o2 orv).Inv := by
  unfold XSDT.Inv XSDT.new
  simp only [Checksum.append, Checksum.default, Checksum.value]
  refine ⟨foldl_wadd_lt _ _ (by omega), ?_, trivial⟩
  rw [foldl_wadd_mod]
  simp only [XSDT.baseSum, XSDT.headerRest, XSDT.headerBytes,
    List.sum_append, List.sum_cons, List.sum_nil, List.map_nil,
    List.flatten_nil]
  simp [CREATOR_ID, CREATOR_REVISION]
  omega

theorem XSDT.addEntry_inv (t : XSDT) (e : Nat) (h : t.Inv) :
    (t.addEntry e).Inv := by
  obtain ⟨h1, h2, h3⟩ := h
  unfold XSDT.Inv XSDT.addEntry
  simp only [Checksum.append, Checksum.value]
  have hm := foldl_wadd_mod (le64 e) t.cksum.state
  have hl := foldl_wadd_lt (le64 e) t.cksum.state h1
  simp only [XSDT.baseSum, XSDT.headerRest] at h2
  refine ⟨hl, ?_, trivial⟩
  simp only [XSDT.baseSum, XSDT.headerRest, List.map_append,
    List.map_cons, List.map_nil, List.flatten_append, List.flatten_cons,
    List.flatten_nil, List.sum_append, List.append_nil]
  omega

theorem xsdtRun_inv (es : List Nat) (t : XSDT) (h : t.Inv) :
    (xsdtRun t es).Inv := by
  induction es generalizing t with
  | nil => exact h
  | cons e rest ih => exact ih _ (XSDT.addEntry_inv t e h)

/-- The bytes the operation's substructure emits. -/
def madtOpBytes : MadtOp → List Nat
  | .rintc r => r.asBytes
  | .imsic i => i.asBytes
  | .aplic a => a.asBytes

theorem madtStep_structures (m m2 : MADT) (op : MadtOp)
    (hs : madtStep m op = some m2) :
    m2.structures = m.structures ++ [madtOpBytes op] := by
  cases op with
  | rintc r =>
    simp only [madtStep, Option.some.injEq] at hs
    subst hs
    rfl
  | aplic a =>
    simp only [madtStep, Option.some.injEq] at hs
    subst hs
    rfl
  | imsic i =>
    simp only [madtStep] at hs
    cases hi : m.has_imsic with
    | true => rw [hi] at hs; simp at hs
    | false =>
      rw [hi] at hs
      simp only [Bool.false_eq_true, if_false, Option.some.injEq] at hs
      subst hs
      rfl

theorem madtRun_structures (ops : List MadtOp) (m m2 : MADT)
    (hr : madtRun m ops = some m2) :
    m2.structures = m.structures ++ ops.map madtOpBytes := by
  induction ops generalizing m with
  | nil =>
    simp only [madtRun, Option.some.injEq] at hr
    subst hr
    simp
  | cons op rest ih =>
    simp only [madtRun] at hr
    cases hstep : madtStep m op with
    | none => rw [hstep] at hr; exact absurd hr (by simp)
    | some mm =>
      rw [hstep] at hr
      rw [ih mm hr, madtStep_structures m mm op hstep]
      simp

theorem rhctStep_structures (t : RHCT) (op : RhctOp) :
    (rhctStep t op).structures = t.structures ++ [rhctOpBytes op] := by
  cases op with
  | isa s => rfl
  | hart uid handle => rfl

theorem rhctRun_structures (ops : List RhctOp) (t : RHCT) :
    (rhctRun t ops).structures = t.structures ++ ops.map rhctOpBytes := by
  induction ops generalizing t with
  | nil => simp [rhctRun]
  | cons op rest ih =>
    simp only [rhctRun, List.map_cons]
    rw [ih, rhctStep_structures]
    simp

theorem rqscRun_structures (qs : List QoSController) (t : RQSC) :
    (rqscRun t qs).structures =
      t.structures ++ qs.map QoSController.asBytes := by
  induction qs generalizing t with
  | nil => simp [rqscRun]
  | cons q rest ih =>
    simp only [rqscRun, List.map_cons]
    rw [ih]
    simp only [RQSC.addController, RQSC.updateHeader]
    simp

theorem xsdtRun_entries (es : List Nat) (t : XSDT) :
    (xsdtRun t es).entries = t.entries ++ es := by
  induction es generalizing t with
  | nil => simp [xsdtRun]
  | cons e rest ih =>
    simp only [xsdtRun]
    rw [ih]
    simp [XSDT.addEntry]

theorem rintc_asBytes_length (r : RINTC) : r.asBytes.length = 20 := by
  simp [RINTC.asBytes, le32, le64]

theorem imsic_asBytes_length (i : IMSIC) : i.asBytes.length = 16 := by
  simp [IMSIC.asBytes, le16]

theorem qos_asBytes_length (q : QoSController) :
    q.asBytes.length = 32 := by
  simp [QoSController.asBytes, GAS.asBytes, le16, le32, le64]

theorem MADT.addBytes_headerBytes_length (m : MADT) (bs : List Nat) :
    (m.addBytes bs).headerBytes.length = m.headerBytes.length := by
  simp [MADT.addBytes, MADT.updateHeader, MADT.headerBytes, le32]

theorem MADT.addRintc_serialize_length (m : MADT) (r : RINTC) :
    (m.addRintc r).serialize.length = m.serialize.length + 20 := by
  have h1 := MADT.addBytes_headerBytes_length m r.asBytes
  simp only [MADT.addRintc] at *
  simp only [madt_serialize_eq, List.length_append, h1]
  have h2 : (m.addBytes r.asBytes).structures =
      m.structures ++ [r.asBytes] := rfl
  rw [h2]
  simp [rintc_asBytes_length r]
  omega

theorem RQSC.addController_headerBytes_length (t : RQSC)
    (q : QoSController) :
    (t.addController q).headerBytes.length = t.headerBytes.length := by
  simp [RQSC.addController, RQSC.updateHeader, RQSC.headerBytes, le32]

theorem RQSC.addController_serialize_length (t : RQSC)
    (q : QoSController) :
    (t.addController q).serialize.length = t.serialize.length + 32 := by
  have h1 := RQSC.addController_headerBytes_length t q
  have h2 : (t.addController q).structures =
      t.structures ++ [q.asBytes] := by
    simp [RQSC.addController, RQSC.updateHeader]
  simp only [rqsc_serialize_eq, List.length_append, h1, h2]
  simp [qos_asBytes_length q, le32]
  omega

theorem XSDT.addEntry_serialize_length (t : XSDT) (e : Nat) :
    (t.addEntry e).serialize.length = t.serialize.length + 8 := by
  have h2 : (t.addEntry e).entries = t.entries ++ [e] := rfl
  have h1 : (t.addEntry e).headerBytes.length = t.headerBytes.length := by
    simp [XSDT.addEntry, XSDT.headerBytes, le32]
  simp only [xsdt_serialize_eq, List.length_append, h1, h2]
  simp [le64]
  omega

theorem isaNodeBytes_length (s : List Nat) :
    (isaNodeBytes s).length = isaNodeLen s := by
  unfold isaNodeBytes isaNodeLen
  simp only [beq_iff_eq]
  split <;> split <;> (simp [le16]; omega)

theorem isaNodeLen_even (s : List Nat) : isaNodeLen s % 2 = 0 := by
  unfold isaNodeLen
  simp only [beq_iff_eq]
  split <;> omega

theorem hartInfoBytes_length (uid handle : Nat) :
    (hartInfoBytes uid handle).length = 16 := by
  simp [hartInfoBytes, le16, le32, hartInfoLen]

/-- The in-table length of the node an operation appends. -/
def rhctOpLen : RhctOp → Nat
  | .isa s => isaNodeLen s
  | .hart _ _ => hartInfoLen

theorem rhctOpBytes_length (op : RhctOp) :
    (rhctOpBytes op).length = rhctOpLen op := by
  cases op with
  | isa s => exact isaNodeBytes_length s
  | hart uid handle => exact hartInfoBytes_length uid handle

theorem rhctStep_handle_offset (t : RHCT) (op : RhctOp) :
    (rhctStep t op).handle_offset =
      (t.handle_offset + (rhctOpBytes op).length % 2 ^ 32) % 2 ^ 32 := by
  rw [rhctOpBytes_length]
  cases op with
  | isa s => rfl
  | hart uid handle => rfl

theorem rhctStep_oem (t : RHCT) (op : RhctOp) :
    (rhctStep t op).oem_id = t.oem_id ∧
      (rhctStep t op).oem_table_id = t.oem_table_id := by
  cases op with
  | isa s => exact ⟨rfl, rfl⟩
  | hart uid handle => exact ⟨rfl, rfl⟩

theorem rhctRun_oem (ops : List RhctOp) (t : RHCT) :
    (rhctRun t ops).oem_id = t.oem_id ∧
      (rhctRun t ops).oem_table_id = t.oem_table_id := by
  induction ops generalizing t with
  | nil => exact ⟨rfl, rfl⟩
  | cons op rest ih =>
    have h1 := rhctStep_oem t op
    have h2 := ih (rhctStep t op)
    simp only [rhctRun]
    exact ⟨h2.1.trans h1.1, h2.2.trans h1.2⟩

theorem RHCT.headerBytes_length (t : RHCT) :
    t.headerBytes.length =
      42 + t.oem_id.length + t.oem_table_id.length := by
  simp [RHCT.headerBytes, le32, le64, CREATOR_ID, CREATOR_REVISION]
  omega

theorem rhctRun_handle_offset (ops : List RhctOp) (t : RHCT)
    (hb : t.handle_offset + (ops.map rhctOpBytes).flatten.length < 2 ^ 32) :
    (rhctRun t ops).handle_offset =
      t.handle_offset + (ops.map rhctOpBytes).flatten.length := by
  induction ops generalizing t with
  | nil => simp [rhctRun]
  | cons op rest ih =>
    simp only [List.map_cons, List.flatten_cons, List.length_append] at hb ⊢
    simp only [rhctRun]
    have hst := rhctStep_handle_offset t op
    have hred : (rhctStep t op).handle_offset =
        t.handle_offset + (rhctOpBytes op).length := by
      rw [hst]
      omega
    rw [ih (rhctStep t op) (by rw [hred]; omega), hred]
    omega

/-- C8: for every byte slice `data`, `generate_checksum(data)` returns
the unique byte `b` such that the wrapping sum of all bytes of `data`
plus `b` is congruent to 0 mod 256. -/
theorem claim_C8_generate_checksum (data : List Nat) :
    generate_checksum data < 256 ∧
      (data.sum + generate_checksum data) % 256 = 0 ∧
      ∀ b, b < 256 → (data.sum + b) % 256 = 0 →
        b = generate_checksum data := by
  have hl := foldl_wadd_lt data 0 (by omega)
  have hm := foldl_wadd_mod data 0
  unfold generate_checksum
  simp only [u8_wadd]
  refine ⟨by omega, by omega, ?_⟩
  intro b hb hz
  omega

/-- Witness for C8 at the concrete byte slice `[1, 2, 3]`. -/
theorem claim_C8_generate_checksum_witness :
    generate_checksum [1, 2, 3] < 256 ∧
      (([1, 2, 3] : List Nat).sum + generate_checksum [1, 2, 3]) % 256 = 0 ∧
      (250 < 256 → (([1, 2, 3] : List Nat).sum + 250) % 256 = 0 →
        250 = generate_checksum [1, 2, 3]) :=
  ⟨(claim_C8_generate_checksum [1, 2, 3]).1,
   (claim_C8_generate_checksum [1, 2, 3]).2.1,
   fun h1 h2 => (claim_C8_generate_checksum [1, 2, 3]).2.2 250 h1 h2⟩

/-- C1: for every table type and every sequence of valid append
operations performed after `new`, the wrapping byte sum of `serialize`'s
output is 0 mod 256. -/
theorem claim_C1_checksum_zero :
    (∀ (o1 o2 : List Nat) (orv : Nat) (lic : LocalInterruptController)
        (ops : List MadtOp) (m : MADT),
        madtRun (MADT.new o1 o2 orv lic) ops = some m →
        m.serialize.sum % 256 = 0) ∧
      (∀ (o1 o2 : List Nat) (orv tf : Nat) (ops : List RhctOp),
        (rhctRun (RHCT.new o1 o2 orv tf) ops).serialize.sum % 256 = 0) ∧
      (∀ (o1 o2 : List Nat) (orv : Nat) (qs : List QoSController),
        (rqscRun (RQSC.new o1 o2 orv) qs).serialize.sum % 256 = 0) ∧
      (∀ (o1 o2 : List Nat) (orv : Nat) (es : List Nat),
        (xsdtRun (XSDT.new o1 o2 orv) es).serialize.sum % 256 = 0) := by
  refine ⟨?_, ?_, ?_, ?_⟩
  · intro o1 o2 orv lic ops m hr
    exact madt_inv_sum_zero m
      (madtRun_inv ops _ m (madt_new_inv o1 o2 orv lic) hr)
  · intro o1 o2 orv tf ops
    exact rhct_inv_sum_zero _ (rhctRun_inv ops _ (rhct_new_inv o1 o2 orv tf))
  · intro o1 o2 orv qs
    exact rqsc_inv_sum_zero _ (rqscRun_inv qs _ (rqsc_new_inv o1 o2 orv))
  · intro o1 o2 orv es
    exact xsdt_inv_sum_zero _ (xsdtRun_inv es _ (xsdt_new_inv o1 o2 orv))

set_option maxRecDepth 8000 in
/-- Witness for C1's MADT hypothesis: the one-RINTC run from a concrete
`new` succeeds, and the resulting table's byte sum is 0 mod 256. -/
theorem claim_C1_checksum_zero_witness :
    madtRun
        (MADT.new [70, 79, 79, 66, 65, 82] [68, 69, 67, 65, 70, 67, 79, 70]
          3735928559 .riscv)
        [MadtOp.rintc (RINTC.new .enabled 42 4096)] =
      some ((MADT.new [70, 79, 79, 66, 65, 82]
          [68, 69, 67, 65, 70, 67, 79, 70] 3735928559 .riscv).addRintc
        (RINTC.new .enabled 42 4096)) ∧
    ((MADT.new [70, 79, 79, 66, 65, 82] [68, 69, 67, 65, 70, 67, 79, 70]
          3735928559 .riscv).addRintc
        (RINTC.new .enabled 42 4096)).serialize.sum % 256 = 0 := by
  have h : madtRun
      (MADT.new [70, 79, 79, 66, 65, 82] [68, 69, 67, 65, 70, 67, 79, 70]
        3735928559 .riscv)
      [MadtOp.rintc (RINTC.new .enabled 42 4096)] =
      some ((MADT.new [70, 79, 79, 66, 65, 82]
          [68, 69, 67, 65, 70, 67, 79, 70] 3735928559 .riscv).addRintc
        (RINTC.new .enabled 42 4096)) := by
    decide
  exact ⟨h, claim_C1_checksum_zero.1 _ _ _ _ _ _ h⟩

/-- C2 (failing evaluation): the XSDT length field is initialized from
the in-memory size of the builder struct (64) although a fresh table
serializes to 36 bytes, stays 64 after an append that grows the output
to 44 bytes, and the RQSC length field (36) omits the 4-byte
controller-count dword of its 40-byte output. -/
theorem claim_C2_length_field_bug :
    ((XSDT.new [70, 79, 79, 66, 65, 82] [67, 65, 70, 69, 68, 69, 65, 68]
        3735928559).length = 64 ∧
      (XSDT.new [70, 79, 79, 66, 65, 82] [67, 65, 70, 69, 68, 69, 65, 68]
        3735928559).serialize.length = 36) ∧
    (((XSDT.new [70, 79, 79, 66, 65, 82] [67, 65, 70, 69, 68, 69, 65, 68]
        3735928559).addEntry 0).length = 64 ∧
      ((XSDT.new [70, 79, 79, 66, 65, 82] [67, 65, 70, 69, 68, 69, 65, 68]
        3735928559).addEntry 0).serialize.length = 44) ∧
    ((RQSC.new [82, 81, 83, 83, 67, 67] [83, 79, 77, 69, 84, 72, 73, 78]
        3405697037).length = 36 ∧
      (RQSC.new [82, 81, 83, 83, 67, 67] [83, 79, 77, 69, 84, 72, 73, 78]
        3405697037).serialize.length = 40) := by
  decide

/-- C3 (counterexample): a freshly constructed RQSC serializes to its
header bytes followed by a controller-count dword, not to the header
bytes followed by its (empty) substructure list alone. -/
theorem claim_C3_counterexample :
    ¬ ((RQSC.new [0, 0, 0, 0, 0, 0] [0, 0, 0, 0, 0, 0, 0, 0] 0).serialize =
      (RQSC.new [0, 0, 0, 0, 0, 0] [0, 0, 0, 0, 0, 0, 0, 0] 0).headerBytes ++
        (RQSC.new [0, 0, 0, 0, 0, 0]
          [0, 0, 0, 0, 0, 0, 0, 0] 0).structures.flatten) := by
  decide

/-- C3 (amended): MADT, RHCT and XSDT serialize exactly their header
bytes followed by each appended substructure's bytes in append order
with nothing else; RQSC additionally emits one little-endian dword
holding the number of stored controllers between the header and the
controllers. -/
theorem claim_C3_serialize_layout :
    (∀ (m0 m : MADT) (ops : List MadtOp), madtRun m0 ops = some m →
      m.serialize =
        m.headerBytes ++ (m0.structures ++ ops.map madtOpBytes).flatten) ∧
    (∀ (t0 : RHCT) (ops : List RhctOp),
      (rhctRun t0 ops).serialize =
        (rhctRun t0 ops).headerBytes ++
          (t0.structures ++ ops.map rhctOpBytes).flatten) ∧
    (∀ (t0 : XSDT) (es : List Nat),
      (xsdtRun t0 es).serialize =
        (xsdtRun t0 es).headerBytes ++ ((t0.entries ++ es).map le64).flatten) ∧
    (∀ (t0 : RQSC) (qs : List QoSController),
      (rqscRun t0 qs).serialize =
        (rqscRun t0 qs).headerBytes ++
          le32 ((t0.structures.length + qs.length) % 2 ^ 32) ++
          (t0.structures ++ qs.map QoSController.asBytes).flatten) := by
  refine ⟨?_, ?_, ?_, ?_⟩
  · intro m0 m ops hr
    rw [madt_serialize_eq, madtRun_structures ops m0 m hr]
  · intro t0 ops
    rw [rhct_serialize_eq, rhctRun_structures ops t0]
  · intro t0 es
    rw [xsdt_serialize_eq, xsdtRun_entries es t0]
  · intro t0 qs
    rw [rqsc_serialize_eq, rqscRun_structures qs t0]
    simp [List.length_append]

set_option maxRecDepth 8000 in
/-- Witness for C3's MADT hypothesis: a concrete one-APLIC run succeeds
and lays out header then substructures. -/
theorem claim_C3_serialize_layout_witness :
    madtRun (MADT.new [0, 1, 2, 3, 4, 5] [0, 1, 2, 3, 4, 5, 6, 7] 7 .riscv)
        [MadtOp.aplic (APLIC.new 0 [65, 66, 67, 68, 69, 0, 0, 0] 2
          2147483648 4294967296 33170 767)] =
      some ((MADT.new [0, 1, 2, 3, 4, 5] [0, 1, 2, 3, 4, 5, 6, 7] 7
          .riscv).addAplic (APLIC.new 0 [65, 66, 67, 68, 69, 0, 0, 0] 2
          2147483648 4294967296 33170 767)) ∧
    ((MADT.new [0, 1, 2, 3, 4, 5] [0, 1, 2, 3, 4, 5, 6, 7] 7
        .riscv).addAplic (APLIC.new 0 [65, 66, 67, 68, 69, 0, 0, 0] 2
        2147483648 4294967296 33170 767)).serialize =
      ((MADT.new [0, 1, 2, 3, 4, 5] [0, 1, 2, 3, 4, 5, 6, 7] 7
          .riscv).addAplic (APLIC.new 0 [65, 66, 67, 68, 69, 0, 0, 0] 2
          2147483648 4294967296 33170 767)).headerBytes ++
        ((MADT.new [0, 1, 2, 3, 4, 5] [0, 1, 2, 3, 4, 5, 6, 7] 7
            .riscv).structures ++
          [MadtOp.aplic (APLIC.new 0 [65, 66, 67, 68, 69, 0, 0, 0] 2
            2147483648 4294967296 33170 767)].map madtOpBytes).flatten := by
  have h : madtRun (MADT.new [0, 1, 2, 3, 4, 5] [0, 1, 2, 3, 4, 5, 6, 7] 7
        .riscv)
      [MadtOp.aplic (APLIC.new 0 [65, 66, 67, 68, 69, 0, 0, 0] 2
        2147483648 4294967296 33170 767)] =
      some ((MADT.new [0, 1, 2, 3, 4, 5] [0, 1, 2, 3, 4, 5, 6, 7] 7
          .riscv).addAplic (APLIC.new 0 [65, 66, 67, 68, 69, 0, 0, 0] 2
          2147483648 4294967296 33170 767)) := by
    decide
  exact ⟨h, claim_C3_serialize_layout.1 _ _ _ h⟩

/-- C4: for every table state, serialization is a pure function of the
state — streaming into any sink only appends the same byte sequence
`serialize` produces to that sink, so two calls into fresh sinks yield
identical output and the table itself is untouched (the embedding's
serializers take the state read-only, mirroring `&self`). -/
theorem claim_C4_serialize_pure :
    (∀ (m : MADT) (sink : List Nat),
      m.toAmlBytesInto sink = sink ++ m.serialize) ∧
    (∀ (t : RHCT) (sink : List Nat),
      t.toAmlBytesInto sink = sink ++ t.serialize) ∧
    (∀ (t : RQSC) (sink : List Nat),
      t.toAmlBytesInto sink = sink ++ t.serialize) ∧
    (∀ (t : XSDT) (sink : List Nat),
      t.toAmlBytesInto sink = sink ++ t.serialize) := by
  refine ⟨?_, ?_, ?_, ?_⟩
  · intro m sink
    rw [madt_toInto_eq, madt_serialize_eq]
    simp
  · intro t sink
    rw [rhct_toInto_eq, rhct_serialize_eq]
    simp
  · intro t sink
    rw [rqsc_toInto_eq, rqsc_serialize_eq]
    simp
  · intro t sink
    rw [xsdt_toInto_eq, xsdt_serialize_eq]
    simp

/-- C5: appending N fixed-size substructures grows `serialize`'s output
by exactly N times the structure size — 20 bytes per RINTC on a MADT,
32 bytes per QoS controller on an RQSC, 8 bytes per table-pointer
entry on an XSDT. -/
theorem claim_C5_fixed_size_growth :
    (∀ (m : MADT) (rs : List RINTC),
      (rs.foldl MADT.addRintc m).serialize.length =
        m.serialize.length + 20 * rs.length) ∧
    (∀ (t : RQSC) (qs : List QoSController),
      (qs.foldl RQSC.addController t).serialize.length =
        t.serialize.length + 32 * qs.length) ∧
    (∀ (t : XSDT) (es : List Nat),
      (es.foldl XSDT.addEntry t).serialize.length =
        t.serialize.length + 8 * es.length) := by
  refine ⟨?_, ?_, ?_⟩
  · intro m rs
    induction rs generalizing m with
    | nil => simp
    | cons r rest ih =>
      simp only [List.foldl_cons, List.length_cons]
      rw [ih, MADT.addRintc_serialize_length]
      ring
  · intro t qs
    induction qs generalizing t with
    | nil => simp
    | cons q rest ih =>
      simp only [List.foldl_cons, List.length_cons]
      rw [ih, RQSC.addController_serialize_length]
      ring
  · intro t es
    induction es generalizing t with
    | nil => simp
    | cons e rest ih =>
      simp only [List.foldl_cons, List.length_cons]
      rw [ih, XSDT.addEntry_serialize_length]
      ring

/-- C7: `add_imsic` on a table that already holds an IMSIC aborts —
the step relation has no successor state, mirroring the
`assert!(!self.has_imsic)` that precedes every mutation, so the
header, checksum and substructure list stay exactly as they were — a
first `add_imsic` succeeds, a fresh table has no IMSIC, and
`add_rintc`/`add_aplic` succeed on every table with any argument. -/
theorem claim_C7_imsic_singleton :
    (∀ (m : MADT) (i : IMSIC), m.has_imsic = true →
      madtStep m (.imsic i) = none) ∧
    (∀ (m : MADT) (i : IMSIC), m.has_imsic = false →
      madtStep m (.imsic i) = some (m.addImsicBody i)) ∧
    (∀ (o1 o2 : List Nat) (orv : Nat) (lic : LocalInterruptController),
      (MADT.new o1 o2 orv lic).has_imsic = false) ∧
    (∀ (m : MADT) (r : RINTC), madtStep m (.rintc r) = some (m.addRintc r)) ∧
    (∀ (m : MADT) (a : APLIC), madtStep m (.aplic a) = some (m.addAplic a)) := by
  refine ⟨?_, ?_, ?_, ?_, ?_⟩
  · intro m i h
    simp [madtStep, h]
  · intro m i h
    simp [madtStep, h]
  · intro o1 o2 orv lic
    rfl
  · intro m r
    rfl
  · intro m a
    rfl

set_option maxRecDepth 8000 in
/-- Witness for C7 at a table that already holds an IMSIC and at a
fresh table. -/
theorem claim_C7_imsic_singleton_witness :
    (((MADT.new [0, 0, 0, 0, 0, 0] [0, 0, 0, 0, 0, 0, 0, 0] 0
          .riscv).addImsicBody (IMSIC.new 63 63 0 0 0 0)).has_imsic = true ∧
      madtStep ((MADT.new [0, 0, 0, 0, 0, 0] [0, 0, 0, 0, 0, 0, 0, 0] 0
          .riscv).addImsicBody (IMSIC.new 63 63 0 0 0 0))
        (.imsic (IMSIC.new 63 63 0 0 0 0)) = none) ∧
    ((MADT.new [0, 0, 0, 0, 0, 0] [0, 0, 0, 0, 0, 0, 0, 0] 0
        .riscv).has_imsic = false ∧
      madtStep (MADT.new [0, 0, 0, 0, 0, 0] [0, 0, 0, 0, 0, 0, 0, 0] 0
          .riscv) (.imsic (IMSIC.new 63 63 0 0 0 0)) =
        some ((MADT.new [0, 0, 0, 0, 0, 0] [0, 0, 0, 0, 0, 0, 0, 0] 0
          .riscv).addImsicBody (IMSIC.new 63 63 0 0 0 0))) := by
  have h1 : ((MADT.new [0, 0, 0, 0, 0, 0] [0, 0, 0, 0, 0, 0, 0, 0] 0
      .riscv).addImsicBody (IMSIC.new 63 63 0 0 0 0)).has_imsic = true := by
    decide
  have h2 : (MADT.new [0, 0, 0, 0, 0, 0] [0, 0, 0, 0, 0, 0, 0, 0] 0
      .riscv).has_imsic = false := by
    decide
  exact ⟨⟨h1, claim_C7_imsic_singleton.1 _ _ h1⟩,
    ⟨h2, claim_C7_imsic_singleton.2.1 _ _ h2⟩⟩

theorem rhctStep_nodes (t : RHCT) (op : RhctOp) :
    (rhctStep t op).rhct_nodes = (t.rhct_nodes + 1) % 2 ^ 32 := by
  cases op with
  | isa s => rfl
  | hart uid handle => rfl

theorem rhctRun_nodes (ops : List RhctOp) (t : RHCT)
    (h : t.rhct_nodes + ops.length < 2 ^ 32) :
    (rhctRun t ops).rhct_nodes = t.rhct_nodes + ops.length := by
  induction ops generalizing t with
  | nil => simp [rhctRun]
  | cons op rest ih =>
    simp only [rhctRun, List.length_cons] at h ⊢
    have hst := rhctStep_nodes t op
    have hred : (rhctStep t op).rhct_nodes = t.rhct_nodes + 1 := by
      rw [hst]
      omega
    rw [ih (rhctStep t op) (by rw [hred]; omega), hred]
    omega

/-- C9: the RHCT node-count field starts at 0 at construction and, after
every append sequence (each append adding exactly 1), equals the total
number of substructures appended so far. -/
theorem claim_C9_rhct_node_count (o1 o2 : List Nat) (orv tf : Nat)
    (ops : List RhctOp) (h : ops.length < 2 ^ 32) :
    (RHCT.new o1 o2 orv tf).rhct_nodes = 0 ∧
      (rhctRun (RHCT.new o1 o2 orv tf) ops).rhct_nodes = ops.length := by
  refine ⟨rfl, ?_⟩
  have h0 : (RHCT.new o1 o2 orv tf).rhct_nodes = 0 := rfl
  rw [rhctRun_nodes ops _ (by rw [h0]; omega), h0]
  omega

set_option maxRecDepth 8000 in
/-- Witness for C9 at a concrete two-append run. -/
theorem claim_C9_rhct_node_count_witness :
    ([RhctOp.isa [97], RhctOp.hart 0 56] : List RhctOp).length < 2 ^ 32 ∧
      (RHCT.new [0, 0, 0, 0, 0, 0] [0, 0, 0, 0, 0, 0, 0, 0] 0
        9).rhct_nodes = 0 ∧
      (rhctRun (RHCT.new [0, 0, 0, 0, 0, 0] [0, 0, 0, 0, 0, 0, 0, 0] 0 9)
        [RhctOp.isa [97], RhctOp.hart 0 56]).rhct_nodes = 2 := by
  have h : ([RhctOp.isa [97], RhctOp.hart 0 56] : List RhctOp).length <
      2 ^ 32 := by
    decide
  exact ⟨h, claim_C9_rhct_node_count _ _ _ _ _ h⟩

theorem isaNodeBytes_field (s : List Nat) :
    (isaNodeBytes s).getD 2 0 + 256 * (isaNodeBytes s).getD 3 0 =
      isaNodeLen s % 2 ^ 16 := by
  unfold isaNodeBytes
  simp only [le16, List.cons_append, List.nil_append, List.getD_cons_succ,
    List.getD_cons_zero]
  omega

/-- C10 (counterexample): for the 65527-byte ISA string the node emits
65536 bytes but the 2-byte length field written into the node encodes
0, so the field does not equal the emitted byte count. -/
theorem claim_C10_counterexample :
    (isaNodeBytes (List.replicate 65527 97)).getD 2 0 +
        256 * (isaNodeBytes (List.replicate 65527 97)).getD 3 0 = 0 ∧
      (isaNodeBytes (List.replicate 65527 97)).length = 65536 := by
  have hlen : (List.replicate 65527 97 : List Nat).length = 65527 :=
    List.length_replicate 65527 97
  have hnode : isaNodeLen (List.replicate 65527 97) = 65536 := by
    unfold isaNodeLen
    rw [hlen]
    decide
  constructor
  · rw [isaNodeBytes_field, hnode]
    decide
  · rw [isaNodeBytes_length, hnode]

/-- C10 (amended): an ISA-string node emits exactly `len()` bytes
(8 header bytes + string length + 1 NUL, rounded up to even by one pad
byte exactly when the string length is even), this count is always
even, and the 2-byte length field equals the emitted byte count reduced
mod 2^16 — hence equals it exactly whenever the string is at most
65525 bytes long, the longest length whose padded count stays below
2^16. -/
theorem claim_C10_isa_node_layout (s : List Nat) :
    (isaNodeBytes s).length = isaNodeLen s ∧
      isaNodeLen s =
        (if (8 + s.length + 1) % 2 == 0 then 8 + s.length + 1
         else 8 + s.length + 1 + 1) ∧
      isaNodeLen s % 2 = 0 ∧
      (isaNodeBytes s).getD 2 0 + 256 * (isaNodeBytes s).getD 3 0 =
        isaNodeLen s % 2 ^ 16 ∧
      (s.length ≤ 65525 →
        (isaNodeBytes s).getD 2 0 + 256 * (isaNodeBytes s).getD 3 0 =
          isaNodeLen s) := by
  refine ⟨isaNodeBytes_length s, rfl, isaNodeLen_even s,
    isaNodeBytes_field s, ?_⟩
  intro hs
  rw [isaNodeBytes_field]
  have hlt : isaNodeLen s < 2 ^ 16 := by
    unfold isaNodeLen
    simp only [beq_iff_eq]
    split <;> omega
  omega

/-- Witness for C10's exactness clause at the one-byte string. -/
theorem claim_C10_isa_node_layout_witness :
    ([97] : List Nat).length ≤ 65525 ∧
      (isaNodeBytes [97]).getD 2 0 + 256 * (isaNodeBytes [97]).getD 3 0 =
        isaNodeLen [97] := by
  have h : ([97] : List Nat).length ≤ 65525 := by decide
  exact ⟨h, (claim_C10_isa_node_layout [97]).2.2.2.2 h⟩

theorem hartInfoBytes_decomp (uid h : Nat) :
    hartInfoBytes uid h =
      (le16 65535 ++ le16 hartInfoLen ++ le16 1 ++ le16 1 ++ le32 uid) ++
        le32 h := by
  simp [hartInfoBytes, List.append_assoc]

/-- C6: the handle `add_isa_string` returns equals the byte offset,
from the start of the serialized table, at which that ISA-string
node's bytes begin (equivalently, the serialized length at append
time), no matter which appends precede or follow; and a hart-info node
built from that handle and appended later serializes exactly that
offset in the little-endian dword at byte 12 of the node. -/
theorem claim_C6_isa_string_handle (o1 o2 : List Nat)
    (orv tf uid : Nat) (opsA mid rest : List RhctOp) (s : List Nat)
    (t0 : RHCT) (h0 : Nat) (L : List RhctOp)
    (h6 : o1.length = 6) (h8 : o2.length = 8)
    (ht0 : t0 = rhctRun (RHCT.new o1 o2 orv tf) opsA)
    (hh : h0 = (t0.addIsaString s).2)
    (hL : L = opsA ++ RhctOp.isa s :: (mid ++ RhctOp.hart uid h0 :: rest))
    (hbound : 56 + ((L.map rhctOpBytes).flatten).length < 2 ^ 32) :
    h0 = t0.serialize.length ∧
      ((rhctRun (RHCT.new o1 o2 orv tf) L).serialize.drop h0).take
        (isaNodeBytes s).length = isaNodeBytes s ∧
      ((rhctRun (RHCT.new o1 o2 orv tf) L).serialize.drop
        (56 + (((opsA ++ RhctOp.isa s :: mid).map rhctOpBytes).flatten).length
          + 12)).take 4 = le32 h0 := by
  subst ht0 hL
  have hh0 : h0 = (rhctRun (RHCT.new o1 o2 orv tf) opsA).handle_offset := hh
  clear hh
  have h56 : (RHCT.new o1 o2 orv tf).handle_offset = 56 := rfl
  have hnilst : (RHCT.new o1 o2 orv tf).structures = [] := rfl
  have hoem1 : (RHCT.new o1 o2 orv tf).oem_id = o1 := rfl
  have hoem2 : (RHCT.new o1 o2 orv tf).oem_table_id = o2 := rfl
  have hflat : ((opsA ++ RhctOp.isa s :: (mid ++ RhctOp.hart uid h0 ::
      rest)).map rhctOpBytes).flatten =
      (opsA.map rhctOpBytes).flatten ++ (isaNodeBytes s ++
        ((mid.map rhctOpBytes).flatten ++ (hartInfoBytes uid h0 ++
          (rest.map rhctOpBytes).flatten))) := by
    simp [rhctOpBytes, List.append_assoc]
  rw [hflat] at hbound
  have hFAbound : (RHCT.new o1 o2 orv tf).handle_offset +
      ((opsA.map rhctOpBytes).flatten).length < 2 ^ 32 := by
    rw [h56]
    simp only [List.length_append] at hbound
    omega
  have hoff : (rhctRun (RHCT.new o1 o2 orv tf) opsA).handle_offset =
      56 + ((opsA.map rhctOpBytes).flatten).length := by
    rw [rhctRun_handle_offset opsA _ hFAbound, h56]
  have hserlen : (rhctRun (RHCT.new o1 o2 orv tf) opsA).serialize.length =
      56 + ((opsA.map rhctOpBytes).flatten).length := by
    rw [rhct_serialize_eq, List.length_append, rhctRun_structures,
      RHCT.headerBytes_length, (rhctRun_oem opsA _).1,
      (rhctRun_oem opsA _).2, hoem1, hoem2, h6, h8, hnilst]
    simp
  refine ⟨by rw [hh0, hoff, hserlen], ?_, ?_⟩
  · have hTser : (rhctRun (RHCT.new o1 o2 orv tf)
        (opsA ++ RhctOp.isa s :: (mid ++ RhctOp.hart uid h0 ::
          rest))).serialize =
        ((rhctRun (RHCT.new o1 o2 orv tf)
          (opsA ++ RhctOp.isa s :: (mid ++ RhctOp.hart uid h0 ::
            rest))).headerBytes ++ (opsA.map rhctOpBytes).flatten) ++
          (isaNodeBytes s ++ ((mid.map rhctOpBytes).flatten ++
            (hartInfoBytes uid h0 ++ (rest.map rhctOpBytes).flatten))) := by
      rw [rhct_serialize_eq, rhctRun_structures, hnilst]
      simp only [List.nil_append]
      rw [hflat, List.append_assoc]
    have hThdr : (rhctRun (RHCT.new o1 o2 orv tf)
        (opsA ++ RhctOp.isa s :: (mid ++ RhctOp.hart uid h0 ::
          rest))).headerBytes.length = 56 := by
      rw [RHCT.headerBytes_length, (rhctRun_oem _ _).1, (rhctRun_oem _ _).2,
        hoem1, hoem2, h6, h8]
    have hP1 : ((rhctRun (RHCT.new o1 o2 orv tf)
        (opsA ++ RhctOp.isa s :: (mid ++ RhctOp.hart uid h0 ::
          rest))).headerBytes ++ (opsA.map rhctOpBytes).flatten).length =
        h0 := by
      rw [List.length_append, hThdr, hh0, hoff]
    rw [hTser, List.drop_left' hP1]
    exact List.take_left _ _
  · have hTser2 : (rhctRun (RHCT.new o1 o2 orv tf)
        (opsA ++ RhctOp.isa s :: (mid ++ RhctOp.hart uid h0 ::
          rest))).serialize =
        ((rhctRun (RHCT.new o1 o2 orv tf)
            (opsA ++ RhctOp.isa s :: (mid ++ RhctOp.hart uid h0 ::
              rest))).headerBytes ++ ((opsA.map rhctOpBytes).flatten ++
          (isaNodeBytes s ++ ((mid.map rhctOpBytes).flatten ++
            (le16 65535 ++ le16 hartInfoLen ++ le16 1 ++ le16 1 ++
              le32 uid))))) ++
          (le32 h0 ++ (rest.map rhctOpBytes).flatten) := by
      rw [rhct_serialize_eq, rhctRun_structures, hnilst]
      simp only [List.nil_append]
      rw [hflat, hartInfoBytes_decomp]
      simp [List.append_assoc]
    have hThdr : (rhctRun (RHCT.new o1 o2 orv tf)
        (opsA ++ RhctOp.isa s :: (mid ++ RhctOp.hart uid h0 ::
          rest))).headerBytes.length = 56 := by
      rw [RHCT.headerBytes_length, (rhctRun_oem _ _).1, (rhctRun_oem _ _).2,
        hoem1, hoem2, h6, h8]
    have hflat2 : (((opsA ++ RhctOp.isa s :: mid).map rhctOpBytes).flatten) =
        (opsA.map rhctOpBytes).flatten ++ (isaNodeBytes s ++
          (mid.map rhctOpBytes).flatten) := by
      simp [rhctOpBytes, List.append_assoc]
    have hP2 : ((rhctRun (RHCT.new o1 o2 orv tf)
        (opsA ++ RhctOp.isa s :: (mid ++ RhctOp.hart uid h0 ::
          rest))).headerBytes ++ ((opsA.map rhctOpBytes).flatten ++
          (isaNodeBytes s ++ ((mid.map rhctOpBytes).flatten ++
            (le16 65535 ++ le16 hartInfoLen ++ le16 1 ++ le16 1 ++
              le32 uid))))).length =
        56 + (((opsA ++ RhctOp.isa s :: mid).map rhctOpBytes).flatten).length
          + 12 := by
      rw [hflat2]
      simp [hThdr, le16, le32]
      omega
    rw [hTser2, List.drop_left' hP2]
    exact List.take_left' (by simp [le32])

set_option maxRecDepth 8000 in
/-- Witness for C6 at a concrete run: one prior ISA string, then the
tracked ISA string `"c"` (handle 68), then a hart-info node built from
that handle. -/
theorem claim_C6_isa_string_handle_witness :
    ([0, 1, 2, 3, 4, 5] : List Nat).length = 6 ∧
      ([0, 1, 2, 3, 4, 5, 6, 7] : List Nat).length = 8 ∧
      (68 : Nat) = ((rhctRun (RHCT.new [0, 1, 2, 3, 4, 5]
        [0, 1, 2, 3, 4, 5, 6, 7] 1 2)
        [RhctOp.isa [97, 98]]).addIsaString [99]).2 ∧
      56 + ((([RhctOp.isa [97, 98], RhctOp.isa [99],
        RhctOp.hart 7 68].map rhctOpBytes).flatten).length) < 2 ^ 32 ∧
      (68 : Nat) = (rhctRun (RHCT.new [0, 1, 2, 3, 4, 5]
        [0, 1, 2, 3, 4, 5, 6, 7] 1 2) [RhctOp.isa [97, 98]]).serialize.length ∧
      ((rhctRun (RHCT.new [0, 1, 2, 3, 4, 5] [0, 1, 2, 3, 4, 5, 6, 7] 1 2)
          [RhctOp.isa [97, 98], RhctOp.isa [99],
            RhctOp.hart 7 68]).serialize.drop 68).take
        (isaNodeBytes [99]).length = isaNodeBytes [99] ∧
      ((rhctRun (RHCT.new [0, 1, 2, 3, 4, 5] [0, 1, 2, 3, 4, 5, 6, 7] 1 2)
          [RhctOp.isa [97, 98], RhctOp.isa [99],
            RhctOp.hart 7 68]).serialize.drop
        (56 + ((([RhctOp.isa [97, 98], RhctOp.isa [99]].map
          rhctOpBytes).flatten).length) + 12)).take 4 = le32 68 := by
  have h6 : ([0, 1, 2, 3, 4, 5] : List Nat).length = 6 := by decide
  have h8 : ([0, 1, 2, 3, 4, 5, 6, 7] : List Nat).length = 8 := by decide
  have hh : (68 : Nat) = ((rhctRun (RHCT.new [0, 1, 2, 3, 4, 5]
      [0, 1, 2, 3, 4, 5, 6, 7] 1 2)
      [RhctOp.isa [97, 98]]).addIsaString [99]).2 := by decide
  have hL : ([RhctOp.isa [97, 98], RhctOp.isa [99], RhctOp.hart 7 68] :
      List RhctOp) = [RhctOp.isa [97, 98]] ++ RhctOp.isa [99] ::
        ([] ++ RhctOp.hart 7 68 :: []) := by decide
  have hb : 56 + ((([RhctOp.isa [97, 98], RhctOp.isa [99],
      RhctOp.hart 7 68].map rhctOpBytes).flatten).length) < 2 ^ 32 := by
    decide
  have hmain := claim_C6_isa_string_handle [0, 1, 2, 3, 4, 5]
    [0, 1, 2, 3, 4, 5, 6, 7] 1 2 7 [RhctOp.isa [97, 98]] [] [] [99]
    (rhctRun (RHCT.new [0, 1, 2, 3, 4, 5] [0, 1, 2, 3, 4, 5, 6, 7] 1 2)
      [RhctOp.isa [97, 98]]) 68
    [RhctOp.isa [97, 98], RhctOp.isa [99], RhctOp.hart 7 68]
    h6 h8 rfl hh hL hb
  exact ⟨h6, h8, hh, hb, hmain.1, hmain.2.1, hmain.2.2⟩
